import Mathlib

/-!
Shallow embedding of the Digicloset load-generation harness
(`loadtest/gpu_load_test.py`) together with the small health-check and
logger modules that some claims refer to.

The Python harness is asynchronous; we model one run as a labelled
transition system.  A scheduler step names a worker index; the worker
either dequeues the head of the shared queue (the atomic `await q.get()`)
or finishes its in-flight HTTP exchange (the atomic resume after
`session.post`, which appends the outcome and calls `q.task_done()`).
An interleaving of workers is a list of worker indices.  Wall-clock
latencies are modelled as rationals supplied by the endpoint model;
floating point rounding is not in scope of any claim.
-/

/-- A work item: the payload dict built in the fill loop of `main`, an
image id plus the quality parameter. -/
structure WorkItem where
  image_id : Nat
  quality : String
deriving DecidableEq, Repr

/-- The payload built for index `i` in the fill loop of `main`. -/
def mkItem (i : Nat) : WorkItem :=
  { image_id := i, quality := "low" }

/-- Result of one HTTP exchange as seen by the worker: either a response
with a status code and an elapsed latency, or a raised client error
(network error or timeout escaping from `session.post`). -/
inductive HttpResult where
  | response (status : Int) (latency : ℚ)
  | failure (err : String)
deriving DecidableEq, Repr

/-- An endpoint model: what one POST of a given item produces. -/
def Endpoint : Type := WorkItem → HttpResult

/-- Whether the HTTP exchange produced a response (no exception). -/
def HttpResult.isResponse : HttpResult → Bool
  | HttpResult.response _ _ => true
  | HttpResult.failure _ => false

/-- One element of the `results` list: the tuple `(status, t1 - t0)`. -/
structure Outcome where
  status : Int
  latency : ℚ
deriving DecidableEq, Repr

/-- The outcome a responding endpoint yields on an item; the default is
irrelevant and only used when the endpoint raises instead. -/
def respOf (ep : Endpoint) (it : WorkItem) : Outcome :=
  match ep it with
  | HttpResult.response st lat => { status := st, latency := lat }
  | HttpResult.failure _ => { status := 0, latency := 0 }

/-- Model of `asyncio.Queue`: a FIFO buffer with a `maxsize` bound
(0 means unbounded, as in the Python default) and the internal
`_unfinished_tasks` counter that `join` waits on. -/
structure AsyncQueue (α : Type) where
  maxsize : Nat
  items : List α
  unfinished : Nat
deriving DecidableEq, Repr

/-- Python `QueueFull`, raised by `put_nowait` on a full queue. -/
inductive QueueFull where
  | queueFull
deriving DecidableEq, Repr

/-- The `full()` predicate of `asyncio.Queue`: never full when
`maxsize` is 0. -/
def AsyncQueue.isFull {α : Type} (q : AsyncQueue α) : Bool :=
  decide (0 < q.maxsize ∧ q.maxsize ≤ q.items.length)

/-- Model of `asyncio.Queue.put_nowait`: raises `QueueFull` when full,
otherwise appends and increments the unfinished-task counter. -/
def AsyncQueue.put_nowait {α : Type} (q : AsyncQueue α) (x : α) :
    Except QueueFull (AsyncQueue α) :=
  if q.isFull then Except.error QueueFull.queueFull
  else Except.ok { q with items := q.items ++ [x], unfinished := q.unfinished + 1 }

/-- The queue constructed in `main`: `asyncio.Queue()` with the default
`maxsize` of 0, holding optional items (a `none` would be the sentinel
the worker loop checks for). -/
def mkMainQueue : AsyncQueue (Option WorkItem) :=
  { maxsize := 0, items := [], unfinished := 0 }

/-- The fill loop of `main`: `for i in range(total): q.put_nowait(...)`.
Python `range` of a negative number is empty, hence `Int.toNat`. -/
def mainFill (total : Int) : Except QueueFull (AsyncQueue (Option WorkItem)) :=
  (List.range total.toNat).foldlM
    (fun q i => q.put_nowait (some (mkItem i))) mkMainQueue

/-- The status of one worker coroutine. -/
inductive WStatus where
  | waiting
  | inflight (item : WorkItem)
  | exited
  | dead
deriving DecidableEq, Repr

/-- The item a worker currently holds, if any. -/
def WStatus.itemOf : WStatus → Option WorkItem
  | WStatus.inflight it => some it
  | _ => none

/-- The items currently held in flight across the pool. -/
def inflightList (ws : List WStatus) : List WorkItem :=
  ws.filterMap WStatus.itemOf

/-- Global state of one run: the shared queue contents, the pool, the
shared `results` list, and the queue unfinished-task counter. -/
structure RunState where
  queue : List (Option WorkItem)
  workers : List WStatus
  results : List Outcome
  unfinished : Nat
deriving DecidableEq, Repr

/-- One scheduler step giving control to worker `w`, following the body
of `worker`:

* a waiting worker on a nonempty queue atomically dequeues the head;
  a `none` head is the sentinel check `if item is None: break`;
* a waiting worker on an empty queue stays blocked in `q.get()`;
* an in-flight worker resumes after `session.post`: on a response it
  appends `(status, t1 - t0)` to `results` and calls `q.task_done()`
  (decrementing the counter); on a raised client error the exception
  escapes the loop, the task dies, and nothing is recorded;
* an exited or dead worker, or an out-of-range index, does nothing. -/
def step (ep : Endpoint) (s : RunState) (w : Nat) : RunState :=
  match s.workers[w]? with
  | some WStatus.waiting =>
    match s.queue with
    | [] => s
    | none :: rest =>
        { s with queue := rest, workers := s.workers.set w WStatus.exited }
    | some it :: rest =>
        { s with queue := rest, workers := s.workers.set w (WStatus.inflight it) }
  | some (WStatus.inflight it) =>
    match ep it with
    | HttpResult.response st lat =>
        { s with workers := s.workers.set w WStatus.waiting,
                 results := s.results ++ [{ status := st, latency := lat }],
                 unfinished := s.unfinished - 1 }
    | HttpResult.failure _ =>
        { s with workers := s.workers.set w WStatus.dead }
  | _ => s

/-- State right after `main` filled the queue and created `concurrency`
worker tasks: all workers waiting, no results, counter at `total`. -/
def initState (total c : Nat) : RunState :=
  { queue := (List.range total).map (fun i => some (mkItem i)),
    workers := List.replicate c WStatus.waiting,
    results := [],
    unfinished := total }

/-- Run the pool under a given interleaving of worker indices. -/
def runLoad (ep : Endpoint) (total c : Nat) (sched : List Nat) : RunState :=
  sched.foldl (step ep) (initState total c)

/-- The condition on which `await q.join()` in `main` returns. -/
def joinDone (s : RunState) : Bool :=
  decide (s.unfinished = 0)

/-- The cancellation loop `for w in workers: w.cancel()` that `main`
runs after the join: every worker task is forcibly cancelled. -/
def cancelWorkers (s : RunState) : RunState :=
  { s with workers := s.workers.map (fun _ => WStatus.dead) }

/-- Python exceptions reachable from the summary line. -/
inductive PyError where
  | zeroDivisionError
deriving DecidableEq, Repr

/-- The success filter of `main`: `ok = [r for r in results if r[0] == 200]`,
counted. -/
def successCount (rs : List Outcome) : Nat :=
  (rs.filter (fun r => r.status == 200)).length

/-- The latency sum of `main`: `sum(r[1] for r in results)`. -/
def latencySum (rs : List Outcome) : ℚ :=
  (rs.map (fun r => r.latency)).sum

/-- The summary tuple printed by `main`. -/
structure Summary where
  total : Nat
  success : Nat
  avgLatency : ℚ
deriving DecidableEq, Repr

/-- The final line of `main`: `len(results)`, `len(ok)` and
`sum(r[1] for r in results)/len(results)`; the division raises
`ZeroDivisionError` when `results` is empty. -/
def printSummary (rs : List Outcome) : Except PyError Summary :=
  if rs.length = 0 then Except.error PyError.zeroDivisionError
  else Except.ok
    { total := rs.length, success := successCount rs,
      avgLatency := latencySum rs / (rs.length : ℚ) }

/-- Python `SystemExit` with its message. -/
structure SystemExitErr where
  msg : String
deriving DecidableEq, Repr

/-- The module-level endpoint check: `ENDPOINT = os.getenv(...)` followed
by `if not ENDPOINT: raise SystemExit(...)`; both an unset variable and
an empty string are falsy. -/
def checkEndpoint (env : Option String) : Except SystemExitErr String :=
  match env with
  | none => Except.error { msg := "Set INFERENCE_ENDPOINT in .env" }
  | some s =>
    if s = "" then Except.error { msg := "Set INFERENCE_ENDPOINT in .env" }
    else Except.ok s

/-- Everything that happens before any worker starts: the endpoint check
runs at import time; `argparse` parses `--concurrency` and `--requests`
as plain integers and the script applies no further validation before
`asyncio.run(main(...))`. -/
def harnessStart (env : Option String) (concurrency total : Int) :
    Except SystemExitErr (String × Int × Int) :=
  match checkEndpoint env with
  | Except.error e => Except.error e
  | Except.ok s => Except.ok (s, concurrency, total)

/-!
Embedding of `backend/app/health.py`.  The `readyz` handler wraps the
database connect and close in a `try` whose `except Exception` arm
returns a response; fallible awaits are modelled as `Except` values,
parametrised by the outcome of `asyncpg.connect` and of `conn.close()`.
-/

/-- The JSON body returned by the `readyz` route. -/
structure ReadyzResponse where
  ready : Bool
  error : Option String
deriving DecidableEq, Repr

/-- The body of `readyz`: try to connect, then close; on the first
raised exception return `ready = False` with `str(e)`, otherwise return
`ready = True`. -/
def readyz {Conn : Type} (connect : Except String Conn)
    (close : Conn → Except String Unit) : ReadyzResponse :=
  match connect with
  | Except.error e => { ready := false, error := some e }
  | Except.ok conn =>
    match close conn with
    | Except.error e => { ready := false, error := some e }
    | Except.ok _ => { ready := true, error := none }

/-!
Embedding of `digicloset_enterprise_upgrade_pack/backend/logger.py`.
The `logging` module registry is an association list from logger names
to loggers; `logging.getLogger` returns the registered logger or
registers a fresh one with no handlers and level NOTSET.  The
`os.makedirs` call touches only the filesystem and is not modelled.
-/

/-- A handler attached to a logger: the rotating file handler with its
constructor arguments, or the stdout stream handler. -/
inductive LogHandler where
  | rotatingFile (path : String) (maxBytes : Nat) (backupCount : Nat)
  | stream
deriving DecidableEq, Repr

/-- A logger object: its effective level string and handler list. -/
structure Logger where
  level : String
  handlers : List LogHandler
deriving DecidableEq, Repr

/-- The `logging` module state: the name-to-logger registry. -/
structure LoggingState where
  registry : List (String × Logger)
deriving DecidableEq, Repr

/-- Model of `logging.getLogger(name)`: the registered logger, or a
fresh one (level NOTSET, no handlers) registered under the name. -/
def getLoggerRaw (st : LoggingState) (name : String) : Logger × LoggingState :=
  match st.registry.lookup name with
  | some l => (l, st)
  | none =>
    let fresh : Logger := { level := "NOTSET", handlers := [] }
    (fresh, { registry := (name, fresh) :: st.registry })

/-- Store a mutation of the named logger back into the registry. -/
def setLogger (st : LoggingState) (name : String) (l : Logger) : LoggingState :=
  { registry := (name, l) :: st.registry }

/-- The body of `get_logger`: return the logger unchanged if it already
has handlers; otherwise set its level from `LOG_LEVEL` (default INFO)
and attach one rotating file handler and one stream handler. -/
def get_logger (env : Option String) (st : LoggingState)
    (name log_file : String) : Logger × LoggingState :=
  let r := getLoggerRaw st name
  if r.1.handlers ≠ [] then r
  else
    let lvl := (env.getD "INFO").toUpper
    let l2 : Logger :=
      { level := lvl,
        handlers := [LogHandler.rotatingFile log_file (5 * 1024 * 1024) 5,
                     LogHandler.stream] }
    (l2, setLogger r.2 name l2)

/-!
Remaining definitions: the endpoint and state instances used to
instantiate theorems, the workload sequence, and the run invariant the
proofs revolve around.
-/

/-- An endpoint that always yields a response (any mix of success and
failure statuses, but never raises). -/
def Responds (ep : Endpoint) : Prop :=
  ∀ it, (ep it).isResponse = true

/-- A concrete always-200 endpoint used to instantiate theorems. -/
def epOk : Endpoint := fun _ => HttpResult.response 200 1

/-- A concrete endpoint on which every exchange raises a client error,
as `aiohttp` does on a network failure or timeout. -/
def epErr : Endpoint := fun _ => HttpResult.failure "ClientConnectorError"

/-- The ordered workload of a run: one item per index. -/
def workload (total : Nat) : List WorkItem :=
  (List.range total).map mkItem

/-- The queue contents `main` builds for a given request count. -/
def filledQueue (n : Nat) : AsyncQueue (Option WorkItem) :=
  { maxsize := 0,
    items := (List.range n).map (fun i => some (mkItem i)),
    unfinished := n }

/-- A concrete one-worker state whose worker holds item 0 in flight. -/
def sInflight : RunState :=
  { queue := [], workers := [WStatus.inflight (mkItem 0)],
    results := [], unfinished := 1 }

/-- A concrete logging registry whose logger `app` already carries a
handler. -/
def loggerSt0 : LoggingState :=
  { registry := [("app", { level := "INFO", handlers := [LogHandler.stream] })] }

/-- The run invariant: outcomes already recorded, outcomes of in-flight
items and outcomes of queued items together make up the full workload;
the unfinished-task counter counts queued plus in-flight items; the
sentinel is never in the queue; and no worker has exited or died. -/
def RunInv (ep : Endpoint) (total : Nat) (s : RunState) : Prop :=
  (((s.results : List Outcome) : Multiset Outcome)
      + (((inflightList s.workers).map (respOf ep) : List Outcome) : Multiset Outcome)
      + (((s.queue.filterMap id).map (respOf ep) : List Outcome) : Multiset Outcome)
    = (((List.range total).map (fun i => respOf ep (mkItem i)) : List Outcome) : Multiset Outcome))
  ∧ s.unfinished = s.queue.length + (inflightList s.workers).length
  ∧ (∀ o ∈ s.queue, o ≠ none)
  ∧ (∀ w ∈ s.workers, w ≠ WStatus.exited ∧ w ≠ WStatus.dead)

/-- Unfolding of `List.filterMap` on a cons cell via `Option.toList`. -/
lemma filterMap_cons_toList {α β : Type} (f : α → Option β) (x : α)
    (t : List α) : (x :: t).filterMap f = (f x).toList ++ t.filterMap f := by
  cases hx : f x <;> simp [hx]

/-- Exchanging the element at a position of a list permutes its
`filterMap` image together with the dropped and added hits. -/
lemma filterMap_set_ms {α β : Type} (f : α → Option β) (l : List α)
    (i : Nat) (old v : α) (h : l[i]? = some old) :
    ((((l.set i v).filterMap f : List β) : Multiset β) + ((f old).toList : List β))
      = (((l.filterMap f : List β) : Multiset β) + ((f v).toList : List β)) := by
  induction l generalizing i with
  | nil => simp at h
  | cons a t ih =>
    cases i with
    | zero =>
      have ha : a = old := by simpa using h
      subst ha
      simp only [List.set_cons_zero, filterMap_cons_toList, ← Multiset.coe_add]
      abel
    | succ n =>
      simp only [List.getElem?_cons_succ] at h
      simp only [List.set_cons_succ, filterMap_cons_toList, ← Multiset.coe_add]
      rw [add_assoc, ih n h, ← add_assoc]

/-- Length form of `filterMap_set_ms`. -/
lemma filterMap_set_length {α β : Type} (f : α → Option β) (l : List α)
    (i : Nat) (old v : α) (h : l[i]? = some old) :
    ((l.set i v).filterMap f).length + (f old).toList.length
      = (l.filterMap f).length + (f v).toList.length := by
  have hc := congrArg Multiset.card (filterMap_set_ms f l i old v h)
  simpa using hc

/-- Dequeuing turns a waiting worker into an in-flight one: its mapped
in-flight multiset gains exactly one entry. -/
lemma inflight_ms_dequeue {γ : Type} (g : WorkItem → γ) (ws : List WStatus)
    (w : Nat) (it : WorkItem) (hw : ws[w]? = some WStatus.waiting) :
    ((((ws.set w (WStatus.inflight it)).filterMap WStatus.itemOf).map g : List γ) : Multiset γ)
      = (((ws.filterMap WStatus.itemOf).map g : List γ) : Multiset γ) + {g it} := by
  have h := filterMap_set_ms (fun x => (WStatus.itemOf x).map g) ws w
    WStatus.waiting (WStatus.inflight it) hw
  simp only [WStatus.itemOf] at h
  simp only [Option.map_none, Option.map_some, Option.toList] at h
  simp only [List.map_filterMap]
  simpa using h

/-- Completing a request turns an in-flight worker back into a waiting
one: its mapped in-flight multiset loses exactly one entry. -/
lemma inflight_ms_complete {γ : Type} (g : WorkItem → γ) (ws : List WStatus)
    (w : Nat) (it : WorkItem) (hw : ws[w]? = some (WStatus.inflight it)) :
    (((ws.filterMap WStatus.itemOf).map g : List γ) : Multiset γ)
      = ((((ws.set w WStatus.waiting).filterMap WStatus.itemOf).map g : List γ) : Multiset γ)
        + {g it} := by
  have h := filterMap_set_ms (fun x => (WStatus.itemOf x).map g) ws w
    (WStatus.inflight it) WStatus.waiting hw
  simp only [WStatus.itemOf] at h
  simp only [Option.map_none, Option.map_some, Option.toList] at h
  simp only [List.map_filterMap]
  simpa using h.symm

/-- Length form of `inflight_ms_dequeue`. -/
lemma inflight_len_dequeue (ws : List WStatus) (w : Nat) (it : WorkItem)
    (hw : ws[w]? = some WStatus.waiting) :
    ((ws.set w (WStatus.inflight it)).filterMap WStatus.itemOf).length
      = (ws.filterMap WStatus.itemOf).length + 1 := by
  have h := filterMap_set_length WStatus.itemOf ws w
    WStatus.waiting (WStatus.inflight it) hw
  simp only [WStatus.itemOf, Option.toList] at h
  simpa using h

/-- Length form of `inflight_ms_complete`. -/
lemma inflight_len_complete (ws : List WStatus) (w : Nat) (it : WorkItem)
    (hw : ws[w]? = some (WStatus.inflight it)) :
    (ws.filterMap WStatus.itemOf).length
      = ((ws.set w WStatus.waiting).filterMap WStatus.itemOf).length + 1 := by
  have h := filterMap_set_length WStatus.itemOf ws w
    (WStatus.inflight it) WStatus.waiting hw
  simp only [WStatus.itemOf, Option.toList] at h
  simpa using h.symm

/-- One scheduler step preserves the run invariant, for any endpoint
that responds to every request. -/
lemma step_inv (ep : Endpoint) (hep : Responds ep) (total : Nat)
    (s : RunState) (w : Nat) (h : RunInv ep total s) :
    RunInv ep total (step ep s w) := by
  obtain ⟨h1, h2, h3, h4⟩ := h
  cases hw : s.workers[w]? with
  | none =>
    have hs : step ep s w = s := by simp [step, hw]
    rw [hs]; exact ⟨h1, h2, h3, h4⟩
  | some ws =>
    cases ws with
    | exited =>
      have hs : step ep s w = s := by simp [step, hw]
      rw [hs]; exact ⟨h1, h2, h3, h4⟩
    | dead =>
      have hs : step ep s w = s := by simp [step, hw]
      rw [hs]; exact ⟨h1, h2, h3, h4⟩
    | waiting =>
      cases hq : s.queue with
      | nil =>
        have hs : step ep s w = s := by simp [step, hw, hq]
        rw [hs]; exact ⟨h1, h2, h3, h4⟩
      | cons o rest =>
        cases o with
        | none =>
          exact absurd rfl (h3 none (by rw [hq]; exact List.mem_cons_self _ _))
        | some it =>
          have hs : step ep s w =
              { s with queue := rest,
                       workers := s.workers.set w (WStatus.inflight it) } := by
            simp [step, hw, hq]
          rw [hs]
          rw [hq] at h1 h2
          refine ⟨?_, ?_, ?_, ?_⟩
          · dsimp only
            simp only [inflightList] at h1 ⊢
            rw [inflight_ms_dequeue (respOf ep) s.workers w it hw, ← h1]
            simp only [filterMap_cons_toList, id_eq, Option.toList,
              List.singleton_append, List.map_cons, ← Multiset.cons_coe]
            simp only [← Multiset.singleton_add]
            abel
          · dsimp only
            simp only [inflightList] at h2 ⊢
            rw [inflight_len_dequeue s.workers w it hw]
            simp only [List.length_cons] at h2
            omega
          · intro o ho
            exact h3 o (by rw [hq]; exact List.mem_cons_of_mem _ ho)
          · intro x hx
            rcases List.mem_or_eq_of_mem_set hx with hx | hx
            · exact h4 x hx
            · subst hx; exact ⟨by simp, by simp⟩
    | inflight it =>
      cases hr : ep it with
      | response st lat =>
        have hs : step ep s w =
            { s with workers := s.workers.set w WStatus.waiting,
                     results := s.results ++ [{ status := st, latency := lat }],
                     unfinished := s.unfinished - 1 } := by
          simp [step, hw, hr]
        rw [hs]
        have hg : respOf ep it = { status := st, latency := lat } := by
          simp [respOf, hr]
        refine ⟨?_, ?_, ?_, ?_⟩
        · dsimp only
          simp only [inflightList] at h1 ⊢
          rw [← h1, inflight_ms_complete (respOf ep) s.workers w it hw, hg]
          simp only [← Multiset.coe_add, Multiset.coe_singleton]
          abel
        · dsimp only
          simp only [inflightList] at h2 ⊢
          have hlen := inflight_len_complete s.workers w it hw
          omega
        · exact h3
        · intro x hx
          rcases List.mem_or_eq_of_mem_set hx with hx | hx
          · exact h4 x hx
          · subst hx; exact ⟨by simp, by simp⟩
      | failure e =>
        exact absurd (hep it) (by simp [hr, HttpResult.isResponse])

/-- No worker of the freshly started pool holds an item. -/
lemma inflightList_replicate_waiting (c : Nat) :
    inflightList (List.replicate c WStatus.waiting) = [] := by
  simp [inflightList, WStatus.itemOf]

/-- Unwrapping an all-`some` list of optional values. -/
lemma filterMap_id_map_some {α β : Type} (f : α → β) (l : List α) :
    (l.map (fun a => some (f a))).filterMap id = l.map f := by
  induction l <;> simp [*]

/-- A `filterMap` whose function always hits is a `map`. -/
lemma filterMap_some_fn {α β : Type} (f : α → β) (l : List α) :
    l.filterMap (fun a => some (f a)) = l.map f := by
  induction l <;> simp [*]

/-- The initial state of a run satisfies the invariant. -/
lemma initState_inv (ep : Endpoint) (total c : Nat) :
    RunInv ep total (initState total c) := by
  refine ⟨?_, ?_, ?_, ?_⟩
  · simp [initState, inflightList_replicate_waiting, filterMap_id_map_some,
      filterMap_some_fn, List.map_map, Function.comp_def]
  · simp [initState, inflightList_replicate_waiting]
  · intro o ho
    simp only [initState, List.mem_map] at ho
    obtain ⟨i, -, rfl⟩ := ho
    simp
  · intro w hw
    simp only [initState, List.mem_replicate] at hw
    rw [hw.2]
    exact ⟨by simp, by simp⟩

/-- The invariant is preserved along any interleaving. -/
lemma foldl_step_inv (ep : Endpoint) (hep : Responds ep) (total : Nat) :
    ∀ (sched : List Nat) (s : RunState), RunInv ep total s →
      RunInv ep total (sched.foldl (step ep) s)
  | [], _, h => h
  | w :: tl, s, h =>
    foldl_step_inv ep hep total tl (step ep s w) (step_inv ep hep total s w h)

/-- Every reachable state of a run against a responding endpoint
satisfies the invariant. -/
lemma runLoad_inv (ep : Endpoint) (hep : Responds ep) (total c : Nat)
    (sched : List Nat) : RunInv ep total (runLoad ep total c sched) :=
  foldl_step_inv ep hep total sched (initState total c) (initState_inv ep total c)

/-- When the unfinished-task counter reaches zero the queue is drained,
nothing is in flight, the recorded outcomes are exactly the outcomes of
the whole workload, and every worker is back to waiting on the queue. -/
lemma final_state (ep : Endpoint) (total : Nat) (s : RunState)
    (hinv : RunInv ep total s) (hdone : s.unfinished = 0) :
    s.queue = [] ∧ inflightList s.workers = [] ∧
    ((s.results : List Outcome) : Multiset Outcome)
      = (((List.range total).map (fun i => respOf ep (mkItem i)) : List Outcome) : Multiset Outcome)
    ∧ s.results.length = total
    ∧ (∀ w ∈ s.workers, w = WStatus.waiting) := by
  obtain ⟨h1, h2, h3, h4⟩ := hinv
  have hq : s.queue = [] := List.length_eq_zero.mp (by omega)
  have hi : inflightList s.workers = [] := List.length_eq_zero.mp (by omega)
  have hms : ((s.results : List Outcome) : Multiset Outcome)
      = (((List.range total).map (fun i => respOf ep (mkItem i)) : List Outcome) : Multiset Outcome) := by
    rw [hq, hi] at h1
    simpa using h1
  refine ⟨hq, hi, hms, ?_, ?_⟩
  · have hc := congrArg Multiset.card hms
    simpa using hc
  · intro w hw
    rcases h4 w hw with ⟨hx, hd⟩
    cases w with
    | waiting => rfl
    | exited => exact absurd rfl hx
    | dead => exact absurd rfl hd
    | inflight it =>
      have : it ∈ inflightList s.workers :=
        List.mem_filterMap.mpr ⟨WStatus.inflight it, hw, rfl⟩
      rw [hi] at this
      exact absurd this (List.not_mem_nil it)

/-- A run over an empty workload never leaves its initial state. -/
lemma step_initZero (ep : Endpoint) (c w : Nat) :
    step ep (initState 0 c) w = initState 0 c := by
  rcases Nat.lt_or_ge w c with h | h
  · simp [step, initState, List.getElem?_replicate, h]
  · simp [step, initState, List.getElem?_replicate, Nat.not_lt.mpr h]

/-- With `total_requests = 0` every interleaving is a stutter. -/
lemma runLoad_zero (ep : Endpoint) (c : Nat) (sched : List Nat) :
    runLoad ep 0 c sched = initState 0 c := by
  induction sched with
  | nil => rfl
  | cons w tl ih =>
    have : runLoad ep 0 c (w :: tl) = tl.foldl (step ep) (step ep (initState 0 c) w) := rfl
    rw [this, step_initZero]
    exact ih

/-- C1.  For every valid RunConfig (concurrency in [1, total_requests])
and any responding endpoint (any mix of success and failure statuses),
every interleaving on which the join completes has recorded exactly
`total_requests` outcomes, and their multiset is exactly the multiset of
per-item outcomes of the workload: no item is dropped, none is processed
twice. -/
theorem run_records_every_outcome (ep : Endpoint) (total c : Nat)
    (sched : List Nat) (hep : Responds ep) (hc1 : 1 ≤ c) (hc2 : c ≤ total)
    (hdone : joinDone (runLoad ep total c sched) = true) :
    (runLoad ep total c sched).results.length = total ∧
    (((runLoad ep total c sched).results : List Outcome) : Multiset Outcome)
      = (((List.range total).map (fun i => respOf ep (mkItem i)) : List Outcome) : Multiset Outcome) := by
  have hdn : (runLoad ep total c sched).unfinished = 0 := by
    simpa [joinDone] using hdone
  obtain ⟨-, -, hms, hlen, -⟩ :=
    final_state ep total _ (runLoad_inv ep hep total c sched) hdn
  exact ⟨hlen, hms⟩

/-- Witness for C1: a concrete completed run with two items and two
workers records exactly two outcomes. -/
theorem run_records_every_outcome_witness :
    Responds epOk ∧ 1 ≤ 2 ∧ 2 ≤ 2 ∧
    joinDone (runLoad epOk 2 2 [0, 0, 1, 1]) = true ∧
    (runLoad epOk 2 2 [0, 0, 1, 1]).results.length = 2 :=
  ⟨fun _ => rfl, by decide, by decide, by decide,
    (run_records_every_outcome epOk 2 2 [0, 0, 1, 1] (fun _ => rfl)
      (by decide) (by decide) (by decide)).1⟩

/-- C2.  With `total_requests = 0` the run records no outcomes and the
summary line of `main` raises `ZeroDivisionError` instead of printing a
summary: the division `sum(r[1] for r in results)/len(results)` has a
zero denominator. -/
theorem total_zero_divides_by_zero (ep : Endpoint) (c : Nat) (sched : List Nat) :
    (runLoad ep 0 c sched).results = [] ∧
    printSummary (runLoad ep 0 c sched).results
      = Except.error PyError.zeroDivisionError := by
  rw [runLoad_zero]
  exact ⟨rfl, rfl⟩

/-- Counterexample to C3: on a run whose single exchange raises a
client error, no Outcome is recorded, the exception escapes the worker
loop and kills the worker, and the unfinished-task counter never
reaches zero, so the join hangs. -/
theorem request_error_escapes_worker_cex :
    (runLoad epErr 1 1 [0, 0]).results = [] ∧
    (runLoad epErr 1 1 [0, 0]).workers = [WStatus.dead] ∧
    (runLoad epErr 1 1 [0, 0]).unfinished = 1 := by
  decide

/-- C3 as amended: a response is always recorded as an Outcome carrying
the literal status code, 2xx or not; but a raised network error or
timeout is thrown out of the worker loop: the worker dies, no Outcome
is recorded and the unfinished-task counter is stuck, so the run hangs
at the join instead of aborting. -/
theorem request_error_kills_worker (ep : Endpoint) (s : RunState) (w : Nat)
    (it : WorkItem) (hw : s.workers[w]? = some (WStatus.inflight it)) :
    (∀ st lat, ep it = HttpResult.response st lat →
      (step ep s w).results = s.results ++ [{ status := st, latency := lat }]) ∧
    (∀ e, ep it = HttpResult.failure e →
      (step ep s w).results = s.results ∧
      (step ep s w).workers = s.workers.set w WStatus.dead ∧
      (step ep s w).unfinished = s.unfinished) := by
  constructor
  · intro st lat hr
    simp [step, hw, hr]
  · intro e hr
    refine ⟨?_, ?_, ?_⟩ <;> simp [step, hw, hr]

/-- Witness for C3 as amended: a concrete in-flight worker dies on a
raised client error without recording anything. -/
theorem request_error_kills_worker_witness :
    sInflight.workers[0]? = some (WStatus.inflight (mkItem 0)) ∧
    ((step epErr sInflight 0).results = sInflight.results ∧
     (step epErr sInflight 0).workers = sInflight.workers.set 0 WStatus.dead ∧
     (step epErr sInflight 0).unfinished = sInflight.unfinished) :=
  ⟨by decide,
    (request_error_kills_worker epErr sInflight 0 (mkItem 0) (by decide)).2
      "ClientConnectorError" rfl⟩

/-- Counterexample to C4: on a completed one-item run the join fires,
yet the worker has not exited its loop — there is no queue close and no
sentinel was enqueued, so it is still blocked in `get()` — and `main`
then forcibly cancels it. -/
theorem worker_never_exits_cex :
    joinDone (runLoad epOk 1 1 [0, 0]) = true ∧
    (runLoad epOk 1 1 [0, 0]).workers = [WStatus.waiting] ∧
    (cancelWorkers (runLoad epOk 1 1 [0, 0])).workers = [WStatus.dead] := by
  decide

/-- C4 as amended: when the join completes the queue has indeed been
fully drained and every buffered item was processed, but no worker has
exited on its own — all are blocked waiting in `get()`, since the
sentinel is never enqueued and `asyncio.Queue` has no close — and the
pool is terminated only by the forced cancellation loop of `main`. -/
theorem pool_terminates_by_cancellation (ep : Endpoint) (total c : Nat)
    (sched : List Nat) (hep : Responds ep)
    (hdone : joinDone (runLoad ep total c sched) = true) :
    (runLoad ep total c sched).queue = [] ∧
    (∀ w ∈ (runLoad ep total c sched).workers, w = WStatus.waiting) ∧
    (∀ w ∈ (cancelWorkers (runLoad ep total c sched)).workers,
      w = WStatus.dead) := by
  have hdn : (runLoad ep total c sched).unfinished = 0 := by
    simpa [joinDone] using hdone
  obtain ⟨hq, -, -, -, hws⟩ :=
    final_state ep total _ (runLoad_inv ep hep total c sched) hdn
  refine ⟨hq, hws, ?_⟩
  intro w hw
  simp only [cancelWorkers, List.mem_map] at hw
  obtain ⟨x, -, rfl⟩ := hw
  rfl

/-- Witness for C4 as amended: the concrete completed run again. -/
theorem pool_terminates_by_cancellation_witness :
    Responds epOk ∧ joinDone (runLoad epOk 1 1 [0, 0]) = true ∧
    (runLoad epOk 1 1 [0, 0]).queue = [] :=
  ⟨fun _ => rfl, by decide,
    (pool_terminates_by_cancellation epOk 1 1 [0, 0] (fun _ => rfl)
      (by decide)).1⟩

/-- Filling a never-full queue with `put_nowait` appends every item and
counts every put in the unfinished-task counter. -/
lemma fill_go (l : List Nat) (q : AsyncQueue (Option WorkItem))
    (h : q.maxsize = 0) :
    l.foldlM (fun q i => q.put_nowait (some (mkItem i))) q
      = Except.ok { maxsize := q.maxsize,
                    items := q.items ++ l.map (fun i => some (mkItem i)),
                    unfinished := q.unfinished + l.length } := by
  induction l generalizing q with
  | nil => simp; rfl
  | cons a tl ih =>
    have hput : q.put_nowait (some (mkItem a))
        = Except.ok { q with items := q.items ++ [some (mkItem a)],
                             unfinished := q.unfinished + 1 } := by
      simp [AsyncQueue.put_nowait, AsyncQueue.isFull, h]
    rw [List.foldlM_cons, hput]
    have h2 := ih { q with items := q.items ++ [some (mkItem a)],
                           unfinished := q.unfinished + 1 } h
    simp only [bind, Except.bind] at h2 ⊢
    rw [h2]
    simp [List.append_assoc, Nat.add_assoc, Nat.add_comm, Nat.add_left_comm]

/-- The fill loop of `main` never blocks and never fails: it returns
the whole workload buffered in an unbounded queue. -/
lemma mainFill_eq (total : Int) :
    mainFill total = Except.ok (filledQueue total.toNat) := by
  have h := fill_go (List.range total.toNat) mkMainQueue rfl
  simpa [mainFill, mkMainQueue, filledQueue] using h

/-- Counterexample to C5: the queue `main` constructs is unbounded
(`maxsize` 0); after buffering one thousand items at once it is still
not full, and a further `put_nowait` succeeds rather than blocking:
its capacity is not bounded independently of `total_requests`. -/
theorem queue_unbounded_cex :
    mkMainQueue.maxsize = 0 ∧
    mainFill 1000 = Except.ok (filledQueue 1000) ∧
    (filledQueue 1000).items.length = 1000 ∧
    (filledQueue 1000).isFull = false ∧
    (filledQueue 1000).put_nowait (some (mkItem 1000))
      = Except.ok { maxsize := 0,
                    items := (filledQueue 1000).items ++ [some (mkItem 1000)],
                    unfinished := 1001 } := by
  refine ⟨rfl, ?_, by simp [filledQueue], rfl, rfl⟩
  have h := mainFill_eq 1000
  simpa using h

/-- C5 as amended: the Work Queue is created with the default
`asyncio.Queue()` bound of zero, meaning unbounded; `main` enqueues the
whole workload up front with the non-blocking `put_nowait`, which never
raises and never loses an item, and the buffered size equals
`total_requests` — it grows with the workload instead of being bounded
independently of it. -/
theorem queue_grows_with_total (total : Int) :
    mainFill total = Except.ok (filledQueue total.toNat) ∧
    (filledQueue total.toNat).maxsize = 0 ∧
    (filledQueue total.toNat).items.length = total.toNat ∧
    (filledQueue total.toNat).isFull = false ∧
    (filledQueue total.toNat).items
      = (workload total.toNat).map (fun it => some it) := by
  refine ⟨mainFill_eq total, rfl, by simp [filledQueue], rfl, ?_⟩
  simp [filledQueue, workload, List.map_map]

/-- With zero workers every scheduler step is a stutter. -/
lemma step_noWorkers (ep : Endpoint) (s : RunState) (h : s.workers = [])
    (w : Nat) : step ep s w = s := by
  simp [step, h]

/-- A run with `concurrency = 0` stays in its initial state forever:
no item is ever processed. -/
lemma runLoad_noWorkers (ep : Endpoint) (total : Nat) (sched : List Nat) :
    runLoad ep total 0 sched = initState total 0 := by
  induction sched with
  | nil => rfl
  | cons w tl ih =>
    have h0 : (initState total 0).workers = [] := rfl
    have : runLoad ep total 0 (w :: tl)
        = tl.foldl (step ep) (step ep (initState total 0) w) := rfl
    rw [this, step_noWorkers ep _ h0]
    exact ih

/-- Counterexample to C6: a configuration with a present endpoint but
`concurrency = 0` and a negative request count passes every check the
harness performs before starting workers — no ConfigurationError, no
non-zero exit. -/
theorem invalid_numbers_accepted_cex :
    harnessStart (some "http://gpu") 0 (-5)
      = Except.ok ("http://gpu", 0, -5) := rfl

/-- C6 as amended: only a missing or empty `INFERENCE_ENDPOINT` makes
the harness fail fast with `SystemExit` before any worker starts; any
integer concurrency and request count are accepted unchecked.  With
`concurrency = 0` and a positive request count the run then starts and
hangs at the join with nothing processed, and a negative request count
behaves as an empty workload. -/
theorem only_missing_endpoint_fails (c t : Int) (s : String) (hs : s ≠ "") :
    harnessStart none c t
      = Except.error { msg := "Set INFERENCE_ENDPOINT in .env" } ∧
    harnessStart (some "") c t
      = Except.error { msg := "Set INFERENCE_ENDPOINT in .env" } ∧
    harnessStart (some s) c t = Except.ok (s, c, t) ∧
    (∀ ep sched, (runLoad ep 1 0 sched).unfinished = 1 ∧
      (runLoad ep 1 0 sched).results = []) ∧
    (∀ c2 : Nat, (initState (Int.toNat (-5)) c2).queue = []) := by
  refine ⟨rfl, rfl, ?_, ?_, ?_⟩
  · simp [harnessStart, checkEndpoint, hs]
  · intro ep sched
    rw [runLoad_noWorkers]
    exact ⟨rfl, rfl⟩
  · intro c2
    rfl

/-- Witness for C6 as amended: a concrete endpoint string. -/
theorem only_missing_endpoint_fails_witness :
    ("http://gpu" ≠ "") ∧
    harnessStart (some "http://gpu") 3 7 = Except.ok ("http://gpu", 3, 7) :=
  ⟨by decide,
    (only_missing_endpoint_fails 3 7 "http://gpu" (by decide)).2.2.1⟩

/-- C7.  Appending an outcome increments the success count exactly when
its status is the literal 200 — every other status, redirects and other
2xx included, counts as a failure — while its latency always enters the
latency sum; and on a nonempty result list the printed summary divides
that all-outcome latency sum by the total count. -/
theorem success_counts_exactly_200 (rs : List Outcome) (s : Int) (l : ℚ) :
    successCount (rs ++ [{ status := s, latency := l }])
      = successCount rs + (if s = 200 then 1 else 0) ∧
    latencySum (rs ++ [{ status := s, latency := l }]) = latencySum rs + l ∧
    (rs ≠ [] → printSummary rs
      = Except.ok { total := rs.length, success := successCount rs,
                    avgLatency := latencySum rs / (rs.length : ℚ) }) := by
  refine ⟨?_, ?_, ?_⟩
  · by_cases hs : s = 200 <;>
      simp [successCount, List.filter_append, hs]
  · simp [latencySum]
  · intro h
    have hne : rs.length ≠ 0 := by simpa [List.length_eq_zero] using h
    simp [printSummary, hne]

/-- Witness for C7: a 500 appended after a 200 and a 301 adds nothing
to the success count, and the concrete summary averages over all three
kinds of outcome. -/
theorem success_counts_exactly_200_witness :
    ([{ status := 200, latency := 1 }, { status := 301, latency := 2 }] : List Outcome) ≠ [] ∧
    successCount ([{ status := 200, latency := 1 }, { status := 301, latency := 2 }]
        ++ [{ status := 500, latency := 3 }])
      = successCount [{ status := 200, latency := 1 }, { status := 301, latency := 2 }]
        + (if (500 : Int) = 200 then 1 else 0) ∧
    printSummary [{ status := 200, latency := 1 }, { status := 301, latency := 2 }]
      = Except.ok { total := 2, success := 1, avgLatency := (3 : ℚ) / 2 } := by
  have h := success_counts_exactly_200
    [{ status := 200, latency := 1 }, { status := 301, latency := 2 }] 500 3
  refine ⟨by decide, h.1, ?_⟩
  have h3 := h.2.2 (by decide)
  rw [h3]
  norm_num [successCount, latencySum]

/-- C8.  The workload generator is deterministic — index `i` always
yields the item with `image_id = i` and the queue is filled with
exactly that sequence — and any two completed interleavings of the same
RunConfig against the same responding endpoint record the same total
and the same success count. -/
theorem run_repeatable (ep : Endpoint) (total c : Nat) (s1 s2 : List Nat)
    (hep : Responds ep)
    (h1 : joinDone (runLoad ep total c s1) = true)
    (h2 : joinDone (runLoad ep total c s2) = true) :
    (runLoad ep total c s1).results.length
      = (runLoad ep total c s2).results.length ∧
    successCount (runLoad ep total c s1).results
      = successCount (runLoad ep total c s2).results ∧
    (initState total c).queue = (workload total).map (fun it => some it) ∧
    (∀ i, i < total → (workload total)[i]? = some (mkItem i)) := by
  have hd1 : (runLoad ep total c s1).unfinished = 0 := by
    simpa [joinDone] using h1
  have hd2 : (runLoad ep total c s2).unfinished = 0 := by
    simpa [joinDone] using h2
  obtain ⟨-, -, hms1, -, -⟩ :=
    final_state ep total _ (runLoad_inv ep hep total c s1) hd1
  obtain ⟨-, -, hms2, -, -⟩ :=
    final_state ep total _ (runLoad_inv ep hep total c s2) hd2
  have hperm : ((runLoad ep total c s1).results).Perm
      ((runLoad ep total c s2).results) :=
    Multiset.coe_eq_coe.mp (hms1.trans hms2.symm)
  refine ⟨hperm.length_eq, ?_, ?_, ?_⟩
  · simpa [successCount, ← List.countP_eq_length_filter] using
      hperm.countP_eq (fun r => r.status == 200)
  · simp [initState, workload, List.map_map, Function.comp_def]
  · intro i hi
    simp [workload, List.getElem?_map, List.getElem?_range, hi]

/-- Witness for C8: two different interleavings of a two-item,
one-worker run agree on the success count. -/
theorem run_repeatable_witness :
    Responds epOk ∧
    joinDone (runLoad epOk 2 1 [0, 0, 0, 0]) = true ∧
    joinDone (runLoad epOk 2 1 [1, 0, 0, 0, 0]) = true ∧
    successCount (runLoad epOk 2 1 [0, 0, 0, 0]).results
      = successCount (runLoad epOk 2 1 [1, 0, 0, 0, 0]).results :=
  ⟨fun _ => rfl, by decide, by decide,
    (run_repeatable epOk 2 1 [0, 0, 0, 0] [1, 0, 0, 0, 0] (fun _ => rfl)
      (by decide) (by decide)).2.1⟩

/-- C9.  The readiness handler always returns a response, for every
outcome of the connection attempt: `ready = True` exactly when both the
connect and the close succeed, and any raised exception — from either
call — yields `ready = False` with the stringified error, never a
propagated exception. -/
theorem readyz_never_raises {Conn : Type} (connect : Except String Conn)
    (close : Conn → Except String Unit) :
    (readyz connect close = { ready := true, error := none } ∨
      ∃ m, readyz connect close = { ready := false, error := some m }) ∧
    (readyz connect close = { ready := true, error := none }
      ↔ ∃ conn, connect = Except.ok conn ∧ close conn = Except.ok ()) ∧
    (∀ e, connect = Except.error e →
      readyz connect close = { ready := false, error := some e }) ∧
    (∀ conn e, connect = Except.ok conn → close conn = Except.error e →
      readyz connect close = { ready := false, error := some e }) := by
  cases hc : connect with
  | error e =>
    refine ⟨Or.inr ⟨e, by simp [readyz]⟩, by simp [readyz], ?_, ?_⟩
    · intro e2 he
      simp only [Except.error.injEq] at he
      subst he
      simp [readyz]
    · intro conn e2 hok
      simp at hok
  | ok conn =>
    cases hcl : close conn with
    | error e =>
      refine ⟨Or.inr ⟨e, by simp [readyz, hcl]⟩, ?_, ?_, ?_⟩
      · simp only [readyz, hcl]
        constructor
        · intro h
          simp at h
        · rintro ⟨conn2, hc2, hcl2⟩
          simp only [Except.ok.injEq] at hc2
          subst hc2
          rw [hcl] at hcl2
          simp at hcl2
      · intro e2 he
        simp at he
      · intro conn2 e2 hok hcl2
        simp only [Except.ok.injEq] at hok
        subst hok
        rw [hcl] at hcl2
        simp only [Except.error.injEq] at hcl2
        subst hcl2
        simp [readyz, hcl]
    | ok u =>
      refine ⟨Or.inl (by simp [readyz, hcl]), ?_, ?_, ?_⟩
      · constructor
        · intro _
          exact ⟨conn, rfl, hcl⟩
        · intro _
          simp [readyz, hcl]
      · intro e2 he
        simp at he
      · intro conn2 e2 hok hcl2
        simp only [Except.ok.injEq] at hok
        subst hok
        rw [hcl] at hcl2
        simp at hcl2

/-- Witness for C9: a concrete failed connect yields a non-raising
not-ready response. -/
theorem readyz_never_raises_witness :
    (Except.error "connection refused" : Except String Unit)
      = Except.error "connection refused" ∧
    readyz (Except.error "connection refused" : Except String Unit)
        (fun _ => Except.ok ())
      = { ready := false, error := some "connection refused" } :=
  ⟨rfl,
    (readyz_never_raises (Except.error "connection refused")
      (fun _ => Except.ok ())).2.2.1 "connection refused" rfl⟩

/-- C10.  The logger factory is idempotent: the second call with the
same name returns the same logger and leaves the registry unchanged, so
no duplicate file or stream handlers are ever attached; and whenever
the registered logger already has a handler, the call returns it
untouched. -/
theorem get_logger_idempotent (env : Option String) (st : LoggingState)
    (name lf : String) :
    get_logger env (get_logger env st name lf).2 name lf
      = get_logger env st name lf ∧
    (∀ l, st.registry.lookup name = some l → l.handlers ≠ [] →
      get_logger env st name lf = (l, st)) := by
  constructor
  · cases hl : st.registry.lookup name with
    | some l =>
      by_cases hh : l.handlers = []
      · simp [get_logger, getLoggerRaw, setLogger, hl, hh, List.lookup]
      · simp [get_logger, getLoggerRaw, hl, hh]
    | none =>
      simp [get_logger, getLoggerRaw, setLogger, hl, List.lookup]
  · intro l hl hh
    simp [get_logger, getLoggerRaw, hl, hh]

/-- Witness for C10: a registry whose `app` logger already has a stream
handler is returned unchanged. -/
theorem get_logger_idempotent_witness :
    loggerSt0.registry.lookup "app"
      = some { level := "INFO", handlers := [LogHandler.stream] } ∧
    ({ level := "INFO", handlers := [LogHandler.stream] } : Logger).handlers ≠ [] ∧
    get_logger none loggerSt0 "app" "logs/app.log"
      = ({ level := "INFO", handlers := [LogHandler.stream] }, loggerSt0) :=
  ⟨rfl, by decide,
    (get_logger_idempotent none loggerSt0 "app" "logs/app.log").2
      { level := "INFO", handlers := [LogHandler.stream] } rfl (by decide)⟩
